import Mathlib

/-
  Verification development for the facturas repository.

  Shallow embedding conventions:
  * Monetary amounts are modelled as exact rationals (ℚ); the source's
    Python floats are idealised as exact decimal arithmetic.
  * `round(x, 2)` (Python banker's rounding) is modelled by `round2`,
    round-half-to-even at two decimal places.
  * `int(x)` (truncation toward zero) is `pyInt`; float `%` is `pyMod`.
-/

/-- A transaction as consumed by `split_transaction` in
`src/invoice_splitter.py`: keys 'fecha', 'concepto', 'importe'
(taxable base) and optional 'importe_con_iva' (tax-inclusive total). -/
structure SplitTx where
  fecha : String
  concepto : String
  importe : ℚ
  importe_con_iva : Option ℚ
  deriving DecidableEq

/-- An invoice draft as produced by `split_transaction`. -/
structure InvoiceData where
  fecha : String
  concepto : String
  base_imponible : ℚ
  original_amount : ℚ
  part_number : ℕ
  total_parts : ℕ
  importe_con_iva : ℚ
  deriving DecidableEq

/-- `config.IVA_RATE = 0.21`. -/
def IVA_RATE : ℚ := 21 / 100

/-- Python `int(x)`: truncation toward zero. -/
def pyInt (x : ℚ) : ℤ := if 0 ≤ x then ⌊x⌋ else -⌊-x⌋

/-- Python float `a % b` (floored modulus, sign of the divisor). -/
def pyMod (a b : ℚ) : ℚ := a - b * ⌊a / b⌋

/-- Round to the nearest integer, ties to even (Python `round`). -/
def roundHalfEven (x : ℚ) : ℤ :=
  if x - ⌊x⌋ < 1/2 then ⌊x⌋
  else if 1/2 < x - ⌊x⌋ then ⌊x⌋ + 1
  else if ⌊x⌋ % 2 = 0 then ⌊x⌋ else ⌊x⌋ + 1

/-- Python `round(x, 2)`. -/
def round2 (x : ℚ) : ℚ := (roundHalfEven (x * 100) : ℚ) / 100

/-- The tax-inclusive total used by `split_transaction`: the
'importe_con_iva' key when present, else `importe * (1 + IVA_RATE)`. -/
def conIvaOf (t : SplitTx) : ℚ :=
  match t.importe_con_iva with
  | some v => v
  | none => t.importe * (1 + IVA_RATE)

/-- `num_invoices = int(total / max_total)`, incremented when
`total % max_total > 0` (invoice_splitter.py lines 53-55). -/
def numInvoices (total c : ℚ) : ℤ :=
  pyInt (total / c) + (if 0 < pyMod total c then 1 else 0)

/-- The `invoice_total` assigned to part `i` (0-based) of a split into
`n` parts: the even share `total / n` for all but the last part, and
`total - (total / n) * (n - 1)` for the last (lines 62-66). -/
def invoiceTotalPart (total : ℚ) (n : ℤ) (i : ℕ) : ℚ :=
  if (i : ℤ) = n - 1 then total - total / (n : ℚ) * ((n : ℚ) - 1)
  else total / (n : ℚ)

/-- `split_transaction` from `src/invoice_splitter.py`. -/
def splitTransaction (t : SplitTx) (maxTotal : ℚ) : List InvoiceData :=
  let base := t.importe
  let conIva := conIvaOf t
  if conIva ≤ maxTotal then
    [{ fecha := t.fecha, concepto := t.concepto, base_imponible := base,
       original_amount := base, part_number := 1, total_parts := 1,
       importe_con_iva := round2 conIva }]
  else
    let n := numInvoices conIva maxTotal
    (List.range n.toNat).map fun i =>
      let invTotal := invoiceTotalPart conIva n i
      { fecha := t.fecha, concepto := t.concepto,
        base_imponible := round2 (invTotal / (1 + IVA_RATE)),
        original_amount := base, part_number := i + 1, total_parts := n.toNat,
        importe_con_iva := round2 invTotal }

/-- One history record, reduced to the list of invoice-number strings
found under its 'invoice_files' entries (the 'number' key of each file
dict in `src/history_manager.py`). -/
structure HistoryRecord where
  invoice_files : List String
  deriving DecidableEq

/-- Numeric value of a decimal digit character. -/
def digitVal (c : Char) : ℕ := c.toNat - 48

/-- `extract_invoice_number` (history_manager.py lines 269-284):
`re.match(r'T\d{2}(\d{4})', s)` — 'T', two digits, then a captured
group of four digits; anything may follow; `None` otherwise. -/
def extractInvoiceNumber (s : String) : Option ℕ :=
  match s.data with
  | 'T' :: y1 :: y2 :: d1 :: d2 :: d3 :: d4 :: _ =>
    if y1.isDigit && y2.isDigit && d1.isDigit && d2.isDigit && d3.isDigit && d4.isDigit
    then some (digitVal d1 * 1000 + digitVal d2 * 100 + digitVal d3 * 10 + digitVal d4)
    else none
  | _ => none

/-- The year extraction `re.match(r'T(\d{2})', invoice_number)` at
history_manager.py line 310: year = 2000 + the two digits after 'T'. -/
def invoiceYearOf (s : String) : Option ℕ :=
  match s.data with
  | 'T' :: y1 :: y2 :: _ =>
    if y1.isDigit && y2.isDigit then some (2000 + (digitVal y1 * 10 + digitVal y2))
    else none
  | _ => none

/-- `config.LAST_INVOICE_NUMBERS.get(year, 0)`: the static table holds
only `{2025: 263}`. -/
def lastInvoiceNumbersCfg (year : ℕ) : ℕ := if year = 2025 then 263 else 0

/-- One iteration of the scan loop in `get_last_invoice_number`
(history_manager.py lines 305-316): match the year pattern, compare the
embedded year, extract the sequence, and keep it when truthy and larger
than the accumulator. -/
def scanStep (year : ℕ) (acc : ℕ) (num : String) : ℕ :=
  match invoiceYearOf num with
  | some y =>
    if y = year then
      match extractInvoiceNumber num with
      | some n => if n ≠ 0 ∧ acc < n then n else acc
      | none => acc
    else acc
  | none => acc

/-- `get_last_invoice_number` (history_manager.py lines 287-322): scan
every number of every record, then fall back to the configuration table
when the scan result is 0. -/
def getLastInvoiceNumber (year : ℕ) (history : List HistoryRecord) : ℕ :=
  let last := history.foldl (fun acc r => r.invoice_files.foldl (scanStep year) acc) 0
  if last = 0 then lastInvoiceNumbersCfg year else last

/-- All invoice-number strings appearing in the history. -/
def allNumbers (history : List HistoryRecord) : List String :=
  (history.map (·.invoice_files)).join

/-- Parse one history number for the requested year: its sequence when
the embedded year matches, `none` otherwise. -/
def parseFor (year : ℕ) (num : String) : Option ℕ :=
  match invoiceYearOf num with
  | some y => if y = year then extractInvoiceNumber num else none
  | none => none

/-- The sequences of all parsed history numbers for the year. -/
def parsedSeqs (year : ℕ) (history : List HistoryRecord) : List ℕ :=
  (allNumbers history).filterMap (parseFor year)

/-- Following the spec's words for C5: "the maximum sequence among all
parsed history invoice numbers whose embedded year is Y" (0 when the
list is empty). -/
def specMaxSeq (year : ℕ) (history : List HistoryRecord) : ℕ :=
  (parsedSeqs year history).foldl max 0

/-- Python `str.lower` restricted to the alphabet appearing in this
program (ASCII plus the Spanish accented capitals). -/
def pyLower (c : Char) : Char :=
  if c = 'Á' then 'á' else if c = 'É' then 'é' else if c = 'Í' then 'í'
  else if c = 'Ó' then 'ó' else if c = 'Ú' then 'ú' else if c = 'Ñ' then 'ñ'
  else if c = 'Ü' then 'ü' else c.toLower

/-- Whitespace removed by Python `str.strip`. -/
def isPyWs (c : Char) : Bool := c = ' ' || c = '\t' || c = '\n' || c = '\r'

/-- `str(val).lower().strip()` applied to one cell
(santander_reader.py line 34). -/
def normCell (s : String) : List Char :=
  (((s.data.map pyLower).dropWhile isPyWs).reverse.dropWhile isPyWs).reverse

/-- Boolean list-prefix test. -/
def listPrefixOf : List Char → List Char → Bool
  | [], _ => true
  | _ :: _, [] => false
  | a :: as, b :: bs => a == b && listPrefixOf as bs

/-- Boolean substring test (Python `kw in val`). -/
def listInfixOf (p : List Char) : List Char → Bool
  | [] => listPrefixOf p []
  | l@(_ :: t) => listPrefixOf p l || listInfixOf p t

/-- `fecha_keywords` (santander_reader.py line 22). -/
def fechaKeywords : List String :=
  ["fecha", "operación", "operacion", "valor", "date"]

/-- `concepto_keywords` (line 23). -/
def conceptoKeywords : List String :=
  ["concepto", "descripción", "descripcion", "detalle", "motivo"]

/-- `importe_keywords` (line 24). -/
def importeKeywords : List String :=
  ["importe", "cantidad", "monto", "valor", "euros", "eur"]

/-- `sum(1 for val in row_values for kw in keywords if kw in val)`. -/
def matchCount (row : List String) (kws : List String) : ℕ :=
  (row.map (fun v => (kws.filter (fun kw => listInfixOf kw.data (normCell v))).length)).sum

/-- The header test at santander_reader.py line 42: at least two of the
three keyword counts are positive. -/
def rowQualifies (row : List String) : Bool :=
  (decide (0 < matchCount row fechaKeywords) &&
     decide (0 < matchCount row conceptoKeywords)) ||
  (decide (0 < matchCount row fechaKeywords) &&
     decide (0 < matchCount row importeKeywords)) ||
  (decide (0 < matchCount row conceptoKeywords) &&
     decide (0 < matchCount row importeKeywords))

/-- Whether scanning row `i` of the grid hits a qualifying header row; a
row index beyond the grid reads as empty/failed and is skipped. -/
def qualAt (grid : List (List String)) (i : ℕ) : Bool :=
  match grid.get? i with
  | some row => rowQualifies row
  | none => false

/-- The scanning loop of `find_header_row`, from row `i` with the given
number of rows left to scan. -/
def findFrom (grid : List (List String)) : ℕ → ℕ → Int
  | _, 0 => -1
  | i, fuel + 1 => if qualAt grid i then (i : Int) else findFrom grid (i + 1) fuel

/-- `find_header_row` (santander_reader.py lines 10-47): first
qualifying row index among the first `maxRows` rows, else -1. -/
def findHeaderRow (grid : List (List String)) (maxRows : ℕ) : Int :=
  findFrom grid 0 maxRows

/-- A spreadsheet cell as seen by the extraction code: missing (NaN),
numeric, string, or a temporal value represented by its
`strftime('%d/%m/%Y')` rendering. -/
inductive CellValue where
  | na
  | num (q : ℚ)
  | str (s : String)
  | date (formatted : String)
  deriving DecidableEq

/-- `pd.isna`. -/
def isNaCell : CellValue → Bool
  | .na => true
  | _ => false

/-- Python `str()` of a cell (numeric rendering abstracted; no claim
inspects it). -/
def pyStrCell : CellValue → String
  | .na => "nan"
  | .num q => toString q
  | .str s => s
  | .date d => d

/-- Value of a digit string. -/
def digitsToNat (cs : List Char) : ℕ :=
  cs.foldl (fun acc c => acc * 10 + digitVal c) 0

/-- Python `float(...)` on a string over the post-cleaning alphabet
(digits, '.', '-'): optional leading minus, then digits with at most one
decimal point and at least one digit; `none` on anything else. -/
def pyFloat? (cs : List Char) : Option ℚ :=
  let negBody : Bool × List Char :=
    match cs with
    | '-' :: rest => (true, rest)
    | _ => (false, cs)
  let ip := negBody.2.takeWhile Char.isDigit
  let rest := negBody.2.dropWhile Char.isDigit
  let mag? : Option ℚ :=
    match rest with
    | [] => if ip.isEmpty then none else some (digitsToNat ip : ℚ)
    | '.' :: frac =>
      if frac.all Char.isDigit && (!ip.isEmpty || !frac.isEmpty)
      then some ((digitsToNat ip : ℚ) + (digitsToNat frac : ℚ) / (10 : ℚ) ^ frac.length)
      else none
    | _ => none
  match mag? with
  | some v => some (if negBody.1 then -v else v)
  | none => none

/-- Characters kept by `re.sub(r'[^\d,.\-]', '', amount)`. -/
def allowedAmountChar (c : Char) : Bool :=
  c.isDigit || c = ',' || c = '.' || c = '-'

/-- `.replace(',', '.')` on one character. -/
def commaToDot (c : Char) : Char := if c = ',' then '.' else c

/-- The cleaned character list of a string amount. -/
def cleanedChars (s : String) : List Char :=
  (s.data.filter allowedAmountChar).map commaToDot

/-- `clean_amount` (santander_reader.py lines 245-273): NaN → 0.0,
numeric pass-through, strings cleaned and parsed with 0.0 on failure,
any other value → 0.0. -/
def cleanAmount : CellValue → ℚ
  | .na => 0
  | .num q => q
  | .str s =>
    match pyFloat? (cleanedChars s) with
    | some q => q
    | none => 0
  | .date _ => 0

/-- A pandas DataFrame: column names plus rows, each row an association
list from column name to cell value. -/
structure DataFrame where
  columns : List String
  rows : List (List (String × CellValue))
  deriving DecidableEq

/-- The `columns` dict produced by `identify_columns`: one optional
column name per role, in dict insertion order. -/
structure ColumnMapping where
  fecha_operacion : Option String
  concepto : Option String
  importe : Option String
  deriving DecidableEq

/-- An included transaction produced by `filter_income_transactions`. -/
structure Transaction where
  fecha : Option String
  concepto : String
  importe : ℚ
  deriving DecidableEq

/-- An excluded transaction with its reason. -/
structure ExcludedTx where
  fecha : Option String
  concepto : String
  importe : ℚ
  razon : String
  deriving DecidableEq

/-- The `info` dict built by `process_santander_file`. -/
structure ProcessInfo where
  total_filas : ℕ
  transacciones_incluidas : ℕ
  transacciones_excluidas : ℕ
  columnas_identificadas : ColumnMapping
  deriving DecidableEq

/-- `row[col]`: a KeyError (modelled as `Except.error`) when the column
label is absent from the row. -/
def rowGet (row : List (String × CellValue)) (col : String) :
    Except String CellValue :=
  match List.lookup col row with
  | some v => Except.ok v
  | none => Except.error ("KeyError: " ++ col)

/-- The fecha normalization of lines 316-325: NaN → None, temporal →
`strftime('%d/%m/%Y')`, else `str(fecha)`. -/
def formatFecha (v : CellValue) : Option String :=
  match v with
  | .na => none
  | .date d => some d
  | v => some (pyStrCell v)

/-- The `try` body of the row loop (santander_reader.py lines 306-342):
read and clean the amount, normalize the date, read the concept, then
classify the row as included (amount > 0) or excluded. -/
def tryProcessRow (fc cc ic : String) (row : List (String × CellValue)) :
    Except String (Transaction ⊕ ExcludedTx) := do
  let amtCell ← rowGet row ic
  let importe := cleanAmount amtCell
  let fecCell ← rowGet row fc
  let fecha := formatFecha fecCell
  let conCell ← rowGet row cc
  let concepto := if isNaCell conCell then "Sin concepto" else pyStrCell conCell
  if 0 < importe then
    return Sum.inl ⟨fecha, concepto, importe⟩
  else
    return Sum.inr ⟨fecha, concepto, importe,
      if importe < 0 then "Gasto o importe cero" else "Importe cero"⟩

/-- The `except` branch of the row loop (lines 343-368): best-effort
re-reads of concept and date, then an excluded entry with amount 0.0 and
reason `"Error al procesar: " + str(e)`. -/
def errorEntry (fc cc : String) (row : List (String × CellValue))
    (e : String) : ExcludedTx :=
  match rowGet row cc with
  | .ok v =>
    { fecha :=
        match rowGet row fc with
        | .ok fv => formatFecha fv
        | .error _ => none,
      concepto := if cc ≠ "" ∧ isNaCell v = false then pyStrCell v else "Sin concepto",
      importe := 0,
      razon := "Error al procesar: " ++ e }
  | .error _ =>
    { fecha := none, concepto := "Error al leer concepto", importe := 0,
      razon := "Error al procesar: " ++ e }

/-- One full row iteration: the try body with its exception handler. -/
def processRow (fc cc ic : String) (row : List (String × CellValue)) :
    Transaction ⊕ ExcludedTx :=
  match tryProcessRow fc cc ic row with
  | .ok v => v
  | .error e => Sum.inr (errorEntry fc cc row e)

/-- Left (included) component of a row outcome. -/
def leftValue? : Transaction ⊕ ExcludedTx → Option Transaction
  | .inl t => some t
  | .inr _ => none

/-- Right (excluded) component of a row outcome. -/
def rightValue? : Transaction ⊕ ExcludedTx → Option ExcludedTx
  | .inl _ => none
  | .inr ex => some ex

/-- `[k for k, v in columns.items() if v is None]` in dict order. -/
def missingRoles (cols : ColumnMapping) : List String :=
  (match cols.fecha_operacion with | none => ["fecha_operacion"] | some _ => []) ++
  (match cols.concepto with | none => ["concepto"] | some _ => []) ++
  (match cols.importe with | none => ["importe"] | some _ => [])

/-- `{k: v for k, v in columns.items() if v is not None}` in dict order. -/
def foundRoles (cols : ColumnMapping) : List (String × String) :=
  (match cols.fecha_operacion with | some v => [("fecha_operacion", v)] | none => []) ++
  (match cols.concepto with | some v => [("concepto", v)] | none => []) ++
  (match cols.importe with | some v => [("importe", v)] | none => [])

/-- Python `sep.join(l)`. -/
def pyJoin (sep : String) : List String → String
  | [] => ""
  | [x] => x
  | x :: xs => x ++ sep ++ pyJoin sep xs

/-- The `for col in df.columns` loop building the column listing. -/
def colsListing (cols : List String) : String :=
  cols.foldl (fun acc c => acc ++ ("  - " ++ c ++ "\n")) ""

/-- The `for key, value in found.items()` loop. -/
def foundListing (found : List (String × String)) : String :=
  found.foldl (fun acc kv => acc ++ ("  - " ++ kv.1 ++ ": " ++ kv.2 ++ "\n")) ""

/-- The error message assembled at santander_reader.py lines 288-303. -/
def buildColumnsError (df : DataFrame) (cols : ColumnMapping) : String :=
  "Columnas no encontradas: " ++ pyJoin ", " (missingRoles cols) ++ "\n\n" ++
  "Columnas encontradas en el archivo:\n" ++ colsListing df.columns ++
  (if foundRoles cols = [] then ""
   else "\nColumnas identificadas:\n" ++ foundListing (foundRoles cols)) ++
  "\nSugerencia: Verifica que el archivo Excel tenga las columnas correctas."

/-- Split the per-row outcomes into the two appended lists. -/
def collectResults (l : List (Transaction ⊕ ExcludedTx)) :
    List Transaction × List ExcludedTx :=
  (l.filterMap leftValue?, l.filterMap rightValue?)

/-- `filter_income_transactions` (lines 276-368): raise with the
descriptive message unless all three roles are truthy, else process
every row. -/
def filterIncomeTransactions (df : DataFrame) (cols : ColumnMapping) :
    Except String (List Transaction × List ExcludedTx) :=
  match cols.fecha_operacion, cols.concepto, cols.importe with
  | some fc, some cc, some ic =>
    if fc = "" ∨ cc = "" ∨ ic = "" then Except.error (buildColumnsError df cols)
    else Except.ok (collectResults (df.rows.map (processRow fc cc ic)))
  | _, _, _ => Except.error (buildColumnsError df cols)

/-- `process_santander_file` (lines 371-398) from the point where the
DataFrame and column mapping are in hand: filter, then build `info`. -/
def processSantanderData (df : DataFrame) (cols : ColumnMapping) :
    Except String (List Transaction × List ExcludedTx × ProcessInfo) :=
  match filterIncomeTransactions df cols with
  | .error e => .error e
  | .ok (txs, excl) =>
    .ok (txs, excl, ⟨df.rows.length, txs.length, excl.length, cols⟩)

/-- The fully resolved Santander column mapping. -/
def colsFull : ColumnMapping :=
  ⟨some "Fecha Operación", some "Concepto", some "Importe"⟩

/-- Scenario E row: European-format negative amount "-45,30". -/
def rowE : List (String × CellValue) :=
  [("Fecha Operación", CellValue.str "02/01/2025"),
   ("Concepto", CellValue.str "RECIBO"),
   ("Importe", CellValue.str "-45,30")]

/-- Scenario E one-row DataFrame. -/
def dfE : DataFrame := ⟨["Fecha Operación", "Concepto", "Importe"], [rowE]⟩

/-- The excluded entry produced for Scenario E. -/
def exclE : ExcludedTx :=
  ⟨some "02/01/2025", "RECIBO", -(453/10), "Gasto o importe cero"⟩

/-- A well-formed row for the C9 witness. -/
def rowGoodW : List (String × CellValue) :=
  [("Fecha Operación", CellValue.date "02/01/2025"),
   ("Concepto", CellValue.str "TRANSFERENCIA"),
   ("Importe", CellValue.num 100)]

/-- A row missing its amount cell: `row[columns['importe']]` raises a
KeyError. -/
def rowBadW : List (String × CellValue) :=
  [("Fecha Operación", CellValue.na), ("Concepto", CellValue.str "X")]

/-- Two-row DataFrame for the C9 witness: one good row, one raising
row. -/
def dfW : DataFrame :=
  ⟨["Fecha Operación", "Concepto", "Importe"], [rowGoodW, rowBadW]⟩

-- ### Helper lemmas

theorem numInvoices_eq_ceil (total c : ℚ) (hc : 0 < c) (h : c < total) :
    numInvoices total c = ⌈total / c⌉ := by
  have htotal : 0 < total := hc.trans h
  have hdiv : 0 < total / c := div_pos htotal hc
  have hpy : pyInt (total / c) = ⌊total / c⌋ := if_pos (le_of_lt hdiv)
  by_cases heq : (⌊total / c⌋ : ℚ) = total / c
  · have htot : total = (⌊total / c⌋ : ℚ) * c := ((div_eq_iff (ne_of_gt hc)).1 heq.symm)
    have hmod : pyMod total c = 0 := by
      unfold pyMod
      have hcm : c * (⌊total / c⌋ : ℚ) = total := by linarith
      linarith
    have hceil : ⌈((⌊total / c⌋ : ℤ) : ℚ)⌉ = ⌊total / c⌋ := Int.ceil_intCast _
    rw [heq] at hceil
    unfold numInvoices
    rw [hpy, hmod, if_neg (lt_irrefl 0), hceil]
    omega
  · have hlt : (⌊total / c⌋ : ℚ) < total / c :=
      lt_of_le_of_ne (Int.floor_le _) heq
    have hmod : 0 < pyMod total c := by
      unfold pyMod
      have := (lt_div_iff₀ hc).1 hlt
      linarith
    have hn : numInvoices total c = ⌊total / c⌋ + 1 := by
      unfold numInvoices
      rw [hpy, if_pos hmod]
    rw [hn]
    have h1 : ⌈total / c⌉ ≤ ⌊total / c⌋ + 1 := by
      apply Int.ceil_le.2
      push_cast
      linarith [Int.lt_floor_add_one (total / c)]
    have h2 : ⌊total / c⌋ + 1 ≤ ⌈total / c⌉ := by
      have hle := Int.le_ceil (total / c)
      have hcast : (⌊total / c⌋ : ℚ) < (⌈total / c⌉ : ℚ) := lt_of_lt_of_le hlt hle
      have : ⌊total / c⌋ < ⌈total / c⌉ := by exact_mod_cast hcast
      omega
    omega

theorem two_le_numInvoices (total c : ℚ) (hc : 0 < c) (h : c < total) :
    2 ≤ numInvoices total c := by
  rw [numInvoices_eq_ceil total c hc h]
  have h1 : (1 : ℚ) < total / c := (one_lt_div hc).2 h
  have h2 : (1 : ℤ) < ⌈total / c⌉ := Int.lt_ceil.2 (by exact_mod_cast h1)
  omega

theorem invoiceTotalPart_eq (total : ℚ) (n : ℤ) (hn : (n : ℚ) ≠ 0) (i : ℕ) :
    invoiceTotalPart total n i = total / (n : ℚ) := by
  unfold invoiceTotalPart
  split
  · field_simp
    ring
  · rfl

theorem split_parts_replicate (total : ℚ) (n : ℤ) (hnq : (n : ℚ) ≠ 0) :
    (List.range n.toNat).map (invoiceTotalPart total n) =
      List.replicate n.toNat (total / (n : ℚ)) := by
  apply List.eq_replicate_iff.2
  constructor
  · simp
  · intro b hb
    rcases List.mem_map.1 hb with ⟨i, _, rfl⟩
    exact invoiceTotalPart_eq total n hnq i

theorem sum_replicate_q (k : ℕ) (a : ℚ) :
    (List.replicate k a).sum = (k : ℚ) * a := by
  induction k with
  | zero => simp
  | succ k ih =>
    rw [List.replicate_succ, List.sum_cons, ih]
    push_cast
    ring

theorem roundHalfEven_le (x : ℚ) : (roundHalfEven x : ℚ) ≤ x + 1/2 := by
  unfold roundHalfEven
  have h1 : (⌊x⌋ : ℚ) ≤ x := Int.floor_le x
  have h2 : x < ⌊x⌋ + 1 := Int.lt_floor_add_one x
  split_ifs <;> push_cast <;> linarith

theorem le_roundHalfEven (x : ℚ) : x - 1/2 ≤ (roundHalfEven x : ℚ) := by
  unfold roundHalfEven
  have h1 : (⌊x⌋ : ℚ) ≤ x := Int.floor_le x
  have h2 : x < ⌊x⌋ + 1 := Int.lt_floor_add_one x
  split_ifs <;> push_cast <;> linarith

theorem round2_le (x : ℚ) : round2 x ≤ x + 1/200 := by
  unfold round2
  have := roundHalfEven_le (x * 100)
  linarith

theorem le_round2 (x : ℚ) : x - 1/200 ≤ round2 x := by
  unfold round2
  have := le_roundHalfEven (x * 100)
  linarith

theorem round2_div100 (k : ℤ) : round2 ((k : ℚ) / 100) = (k : ℚ) / 100 := by
  unfold round2
  have h : ((k : ℚ) / 100) * 100 = (k : ℚ) := by field_simp
  rw [h]
  unfold roundHalfEven
  rw [Int.floor_intCast]
  rw [if_pos (by norm_num : (k : ℚ) - (k : ℚ) < 1/2)]

/-- In the over-ceiling branch, `splitTransaction` is the mapped range. -/
theorem splitTransaction_of_gt (t : SplitTx) (c : ℚ) (h : c < conIvaOf t) :
    splitTransaction t c =
      (List.range (numInvoices (conIvaOf t) c).toNat).map fun i =>
        { fecha := t.fecha, concepto := t.concepto,
          base_imponible :=
            round2 (invoiceTotalPart (conIvaOf t) (numInvoices (conIvaOf t) c) i /
              (1 + IVA_RATE)),
          original_amount := t.importe, part_number := i + 1,
          total_parts := (numInvoices (conIvaOf t) c).toNat,
          importe_con_iva :=
            round2 (invoiceTotalPart (conIvaOf t) (numInvoices (conIvaOf t) c) i) } := by
  unfold splitTransaction
  dsimp only
  rw [if_neg (not_le.2 h)]

-- ### Claim C1

/-- C1 counterexample: for the transaction with tax-inclusive total 100 and
ceiling 40 (> 0), the code produces three drafts whose stored
`importe_con_iva` values are 33.33 each, summing to 99.99 ≠ 100, so the
claimed exact round-trip law fails on the rounded draft fields. -/
theorem split_rounded_sum_ne_total_cex :
    conIvaOf ⟨"01/02/2025", "TRANSFERENCIA", 100, some 100⟩ = 100 ∧
    (40 : ℚ) < 100 ∧ (0 : ℚ) < 40 ∧
    ((splitTransaction ⟨"01/02/2025", "TRANSFERENCIA", 100, some 100⟩ 40).map
        (·.importe_con_iva)).sum = 9999/100 ∧
    (9999/100 : ℚ) ≠ 100 := by
  have hcon : conIvaOf ⟨"01/02/2025", "TRANSFERENCIA", 100, some 100⟩ = 100 := rfl
  refine ⟨hcon, by norm_num, by norm_num, ?_, by norm_num⟩
  have hgt : (40 : ℚ) < conIvaOf ⟨"01/02/2025", "TRANSFERENCIA", 100, some 100⟩ := by
    rw [hcon]; norm_num
  have hnum : numInvoices 100 40 = 3 := by
    rw [numInvoices_eq_ceil 100 40 (by norm_num) (by norm_num)]
    rw [Int.ceil_eq_iff]
    constructor <;> norm_num
  rw [splitTransaction_of_gt _ _ hgt, hcon, hnum]
  norm_num [List.range_succ, invoiceTotalPart, round2, roundHalfEven]
  simp [Function.comp, List.range_succ]
  norm_num

/-- C1 (amended): in the over-ceiling case the UNROUNDED per-part totals
(the even share for the first n−1 parts and the exact remainder for the
last) sum exactly to the original tax-inclusive total and each is ≤ the
ceiling; every draft stores that part total rounded to 2 decimals, hence
each stored total is ≤ ceiling + 0.005 and the stored sum lies within
n·0.005 of the original total (but need not equal it exactly). -/
theorem split_exact_sum_and_bound (t : SplitTx) (c : ℚ) (hc : 0 < c)
    (hgt : c < conIvaOf t) :
    ((List.range (numInvoices (conIvaOf t) c).toNat).map
        (invoiceTotalPart (conIvaOf t) (numInvoices (conIvaOf t) c))).sum = conIvaOf t ∧
    (∀ p ∈ (List.range (numInvoices (conIvaOf t) c).toNat).map
        (invoiceTotalPart (conIvaOf t) (numInvoices (conIvaOf t) c)), p ≤ c) ∧
    (splitTransaction t c).map (·.importe_con_iva) =
      ((List.range (numInvoices (conIvaOf t) c).toNat).map
        (invoiceTotalPart (conIvaOf t) (numInvoices (conIvaOf t) c))).map round2 ∧
    (∀ d ∈ splitTransaction t c, d.importe_con_iva ≤ c + 1/200) ∧
    conIvaOf t - ((numInvoices (conIvaOf t) c).toNat : ℚ) * (1/200) ≤
      ((splitTransaction t c).map (·.importe_con_iva)).sum ∧
    ((splitTransaction t c).map (·.importe_con_iva)).sum ≤
      conIvaOf t + ((numInvoices (conIvaOf t) c).toNat : ℚ) * (1/200) := by
  set total := conIvaOf t with htotdef
  set n := numInvoices total c with hndef
  have hceil : n = ⌈total / c⌉ := numInvoices_eq_ceil total c hc hgt
  have h2 : 2 ≤ n := two_le_numInvoices total c hc hgt
  have hn0 : (0 : ℤ) < n := by omega
  have hnq : (0 : ℚ) < (n : ℚ) := by exact_mod_cast hn0
  have hnq' : (n : ℚ) ≠ 0 := ne_of_gt hnq
  have htoNat : ((n.toNat : ℚ)) = (n : ℚ) := by
    exact_mod_cast Int.toNat_of_nonneg (le_of_lt hn0)
  have hrepl := split_parts_replicate total n hnq'
  have hshare : total / (n : ℚ) ≤ c := by
    have h1 : total / c ≤ ((n : ℤ) : ℚ) := by rw [hceil]; exact Int.le_ceil (total / c)
    have h3 : total ≤ ((n : ℤ) : ℚ) * c := (div_le_iff₀ hc).1 h1
    rw [div_le_iff₀ hnq]
    linarith
  have hmap : (splitTransaction t c).map (·.importe_con_iva) =
      ((List.range n.toNat).map (invoiceTotalPart total n)).map round2 := by
    rw [splitTransaction_of_gt t c hgt]
    rw [List.map_map, List.map_map]
    rfl
  have hdivmul : (n : ℚ) * (total / (n : ℚ)) = total := by field_simp
  refine ⟨?_, ?_, hmap, ?_, ?_, ?_⟩
  · rw [hrepl, sum_replicate_q, htoNat, hdivmul]
  · intro p hp
    rw [hrepl] at hp
    rw [List.eq_of_mem_replicate hp]
    exact hshare
  · intro d hd
    have hmem : d.importe_con_iva ∈ (splitTransaction t c).map (·.importe_con_iva) :=
      List.mem_map_of_mem _ hd
    rw [hmap, hrepl, List.map_replicate] at hmem
    rw [List.eq_of_mem_replicate hmem]
    have := round2_le (total / (n : ℚ))
    linarith
  · rw [hmap, hrepl, List.map_replicate, sum_replicate_q, htoNat]
    have hlow := le_round2 (total / (n : ℚ))
    have hmul := mul_le_mul_of_nonneg_left hlow (le_of_lt hnq)
    nlinarith [hdivmul]
  · rw [hmap, hrepl, List.map_replicate, sum_replicate_q, htoNat]
    have hup := round2_le (total / (n : ℚ))
    have hmul := mul_le_mul_of_nonneg_left hup (le_of_lt hnq)
    nlinarith [hdivmul]

/-- C1 amended witness at the counterexample-adjacent input: transaction
with tax-inclusive total 100, ceiling 40. -/
theorem split_exact_sum_and_bound_witness :
    ((List.range (numInvoices (conIvaOf ⟨"01/02/2025", "TRANSFERENCIA", 100, some 100⟩) 40).toNat).map
        (invoiceTotalPart (conIvaOf ⟨"01/02/2025", "TRANSFERENCIA", 100, some 100⟩)
          (numInvoices (conIvaOf ⟨"01/02/2025", "TRANSFERENCIA", 100, some 100⟩) 40))).sum =
      conIvaOf ⟨"01/02/2025", "TRANSFERENCIA", 100, some 100⟩ ∧
    (∀ d ∈ splitTransaction ⟨"01/02/2025", "TRANSFERENCIA", 100, some 100⟩ 40,
      d.importe_con_iva ≤ 40 + 1/200) := by
  have h := split_exact_sum_and_bound ⟨"01/02/2025", "TRANSFERENCIA", 100, some 100⟩ 40
    (by norm_num) (by norm_num [conIvaOf])
  exact ⟨h.1, h.2.2.2.1⟩

-- ### Claim C2

/-- C2 counterexample: the transaction with taxable base 33.33 (no
precomputed total) has tax-inclusive total 33.33 × 1.21 = 40.3293 ≤ 400,
yet the single emitted draft stores importe_con_iva = 40.33 ≠ 40.3293:
the tax-inclusive amount is NOT returned unchanged. -/
theorem split_single_rounds_total_cex :
    conIvaOf ⟨"03/02/2025", "CLASE", 3333/100, none⟩ = 403293/10000 ∧
    (403293/10000 : ℚ) ≤ 400 ∧
    splitTransaction ⟨"03/02/2025", "CLASE", 3333/100, none⟩ 400 =
      [⟨"03/02/2025", "CLASE", 3333/100, 3333/100, 1, 1, 4033/100⟩] ∧
    (4033/100 : ℚ) ≠ 403293/10000 := by
  have hcon : conIvaOf ⟨"03/02/2025", "CLASE", 3333/100, none⟩ = 403293/10000 := by
    norm_num [conIvaOf, IVA_RATE]
  refine ⟨hcon, by norm_num, ?_, by norm_num⟩
  unfold splitTransaction
  dsimp only
  rw [if_pos (by rw [hcon]; norm_num)]
  rw [hcon]
  norm_num [round2, roundHalfEven]

/-- C2 (amended): when the tax-inclusive total is ≤ the ceiling,
`split_transaction` emits exactly one draft with part_number = 1,
total_parts = 1 and the taxable base unchanged, but it stores the
tax-inclusive total ROUNDED to 2 decimals; the stored total equals the
original exactly whenever the original has at most two decimal places. -/
theorem split_single_draft_under_ceiling (t : SplitTx) (c : ℚ)
    (h : conIvaOf t ≤ c) :
    splitTransaction t c =
      [{ fecha := t.fecha, concepto := t.concepto, base_imponible := t.importe,
         original_amount := t.importe, part_number := 1, total_parts := 1,
         importe_con_iva := round2 (conIvaOf t) }] ∧
    ∀ k : ℤ, conIvaOf t = (k : ℚ) / 100 → round2 (conIvaOf t) = conIvaOf t := by
  constructor
  · unfold splitTransaction
    dsimp only
    rw [if_pos h]
  · intro k hk
    rw [hk]
    exact round2_div100 k

/-- C2 amended witness: spec Scenario B, base 300, rate 0.21, ceiling
400 → single draft and the 2-decimal total 363.00 survives unrounded. -/
theorem split_single_draft_under_ceiling_witness :
    splitTransaction ⟨"05/02/2025", "CLASE", 300, none⟩ 400 =
      [{ fecha := "05/02/2025", concepto := "CLASE", base_imponible := 300,
         original_amount := 300, part_number := 1, total_parts := 1,
         importe_con_iva := round2 (conIvaOf ⟨"05/02/2025", "CLASE", 300, none⟩) }] ∧
    round2 (conIvaOf ⟨"05/02/2025", "CLASE", 300, none⟩) =
      conIvaOf ⟨"05/02/2025", "CLASE", 300, none⟩ := by
  have h := split_single_draft_under_ceiling ⟨"05/02/2025", "CLASE", 300, none⟩ 400
    (by norm_num [conIvaOf, IVA_RATE])
  exact ⟨h.1, h.2 36300 (by norm_num [conIvaOf, IVA_RATE])⟩

-- ### Claim C3

/-- C3: above the ceiling, `split_transaction` produces exactly
n = ⌈tax_inclusive_total / ceiling⌉ drafts, each carrying total_parts = n
and the per-part tax-inclusive share total / n (stored rounded to 2
decimals); in particular base 1000.00 at rate 0.21 with ceiling 400.00
gives 4 drafts of 302.50 tax-inclusive each. -/
theorem split_count_eq_ceil_div :
    (∀ (t : SplitTx) (c : ℚ), 0 < c → c < conIvaOf t →
      (splitTransaction t c).length = (⌈conIvaOf t / c⌉).toNat ∧
      numInvoices (conIvaOf t) c = ⌈conIvaOf t / c⌉ ∧
      ∀ d ∈ splitTransaction t c,
        d.total_parts = (⌈conIvaOf t / c⌉).toNat ∧
        d.importe_con_iva = round2 (conIvaOf t / ((⌈conIvaOf t / c⌉ : ℤ) : ℚ))) ∧
    (splitTransaction ⟨"06/02/2025", "CLASE", 1000, none⟩ 400).map (·.importe_con_iva) =
      [605/2, 605/2, 605/2, 605/2] ∧
    (splitTransaction ⟨"06/02/2025", "CLASE", 1000, none⟩ 400).length = 4 ∧
    ∀ d ∈ splitTransaction ⟨"06/02/2025", "CLASE", 1000, none⟩ 400,
      d.total_parts = 4 := by
  have hmain : ∀ (t : SplitTx) (c : ℚ), 0 < c → c < conIvaOf t →
      (splitTransaction t c).length = (⌈conIvaOf t / c⌉).toNat ∧
      numInvoices (conIvaOf t) c = ⌈conIvaOf t / c⌉ ∧
      ∀ d ∈ splitTransaction t c,
        d.total_parts = (⌈conIvaOf t / c⌉).toNat ∧
        d.importe_con_iva = round2 (conIvaOf t / ((⌈conIvaOf t / c⌉ : ℤ) : ℚ)) := by
    intro t c hc hgt
    have hceil : numInvoices (conIvaOf t) c = ⌈conIvaOf t / c⌉ :=
      numInvoices_eq_ceil _ _ hc hgt
    have h2 : 2 ≤ numInvoices (conIvaOf t) c := two_le_numInvoices _ _ hc hgt
    have hnq' : ((numInvoices (conIvaOf t) c : ℤ) : ℚ) ≠ 0 := by
      have : (0 : ℚ) < ((numInvoices (conIvaOf t) c : ℤ) : ℚ) := by
        exact_mod_cast (by omega : (0 : ℤ) < numInvoices (conIvaOf t) c)
      exact ne_of_gt this
    refine ⟨?_, hceil, ?_⟩
    · rw [splitTransaction_of_gt t c hgt, List.length_map, List.length_range, hceil]
    · intro d hd
      rw [splitTransaction_of_gt t c hgt] at hd
      rcases List.mem_map.1 hd with ⟨i, _, rfl⟩
      refine ⟨by rw [hceil], ?_⟩
      show round2 (invoiceTotalPart (conIvaOf t) (numInvoices (conIvaOf t) c) i) = _
      rw [invoiceTotalPart_eq _ _ hnq', hceil]
  refine ⟨hmain, ?_, ?_, ?_⟩
  all_goals {
    have hcon : conIvaOf ⟨"06/02/2025", "CLASE", 1000, none⟩ = 1210 := by
      norm_num [conIvaOf, IVA_RATE]
    have hgt : (400 : ℚ) < conIvaOf ⟨"06/02/2025", "CLASE", 1000, none⟩ := by
      rw [hcon]; norm_num
    have hnum : numInvoices 1210 400 = 4 := by
      rw [numInvoices_eq_ceil 1210 400 (by norm_num) (by norm_num)]
      rw [Int.ceil_eq_iff]
      constructor <;> norm_num
    rw [splitTransaction_of_gt _ _ hgt]
    rw [hcon, hnum]
    norm_num [List.range_succ, invoiceTotalPart, round2, roundHalfEven]
    simp [Function.comp, List.range_succ]
  }

/-- C3 witness for the universally quantified part, at tax-inclusive
total 100 and ceiling 40 (n = 3). -/
theorem split_count_eq_ceil_div_witness :
    (splitTransaction ⟨"07/02/2025", "CLASE", 100, some 100⟩ 40).length =
      (⌈conIvaOf ⟨"07/02/2025", "CLASE", 100, some 100⟩ / 40⌉).toNat ∧
    numInvoices (conIvaOf ⟨"07/02/2025", "CLASE", 100, some 100⟩) 40 =
      ⌈conIvaOf ⟨"07/02/2025", "CLASE", 100, some 100⟩ / 40⌉ := by
  have h := split_count_eq_ceil_div.1 ⟨"07/02/2025", "CLASE", 100, some 100⟩ 40
    (by norm_num) (by norm_num [conIvaOf])
  exact ⟨h.1, h.2.1⟩

-- ### Claim C10

/-- C10: for every transaction and every ceiling > 0, the draft at
1-based position i of `split_transaction` has part_number = i, every
draft's total_parts equals the number of drafts, and every draft carries
the source transaction's fecha, concepto and taxable base
(original_amount) unchanged. -/
theorem split_draft_invariants (t : SplitTx) (c : ℚ) (hc : 0 < c) :
    ∀ (i : ℕ) (d : InvoiceData), (splitTransaction t c).get? i = some d →
      d.part_number = i + 1 ∧
      d.total_parts = (splitTransaction t c).length ∧
      d.fecha = t.fecha ∧ d.concepto = t.concepto ∧
      d.original_amount = t.importe := by
  intro i d hd
  by_cases hle : conIvaOf t ≤ c
  · have heq : splitTransaction t c =
        [{ fecha := t.fecha, concepto := t.concepto, base_imponible := t.importe,
           original_amount := t.importe, part_number := 1, total_parts := 1,
           importe_con_iva := round2 (conIvaOf t) }] := by
      unfold splitTransaction
      dsimp only
      rw [if_pos hle]
    rw [heq] at hd
    cases i with
    | zero =>
      simp only [List.get?] at hd
      injection hd with hd
      rw [← hd, heq]
      exact ⟨rfl, rfl, rfl, rfl, rfl⟩
    | succ k =>
      simp only [List.get?] at hd
      cases k <;> simp at hd
  · push_neg at hle
    have heq := splitTransaction_of_gt t c hle
    rw [heq, List.get?_map] at hd
    cases hrange : (List.range (numInvoices (conIvaOf t) c).toNat).get? i with
    | none => rw [hrange] at hd; exact Option.noConfusion hd
    | some j =>
      rw [hrange] at hd
      have hlt : i < (numInvoices (conIvaOf t) c).toNat := by
        by_contra hge
        rw [List.get?_eq_none.2 (by simpa using Nat.le_of_not_lt hge)] at hrange
        exact Option.noConfusion hrange
      have hij : j = i := by
        rw [List.get?_range hlt] at hrange
        exact (Option.some.inj hrange).symm
      subst hij
      simp only [Option.map_some'] at hd
      injection hd with hd
      subst hd
      refine ⟨rfl, ?_, rfl, rfl, rfl⟩
      rw [heq, List.length_map, List.length_range]

/-- C10 witness at a concrete under-ceiling transaction. -/
theorem split_draft_invariants_witness :
    ({ fecha := "08/02/2025", concepto := "CLASE", base_imponible := 10,
       original_amount := 10, part_number := 1, total_parts := 1,
       importe_con_iva := round2 (conIvaOf ⟨"08/02/2025", "CLASE", 10, none⟩) } :
       InvoiceData).part_number = 0 + 1 ∧
    ({ fecha := "08/02/2025", concepto := "CLASE", base_imponible := 10,
       original_amount := 10, part_number := 1, total_parts := 1,
       importe_con_iva := round2 (conIvaOf ⟨"08/02/2025", "CLASE", 10, none⟩) } :
       InvoiceData).total_parts =
      (splitTransaction ⟨"08/02/2025", "CLASE", 10, none⟩ 40).length := by
  have hsingle : splitTransaction ⟨"08/02/2025", "CLASE", 10, none⟩ 40 =
      [{ fecha := "08/02/2025", concepto := "CLASE", base_imponible := 10,
         original_amount := 10, part_number := 1, total_parts := 1,
         importe_con_iva := round2 (conIvaOf ⟨"08/02/2025", "CLASE", 10, none⟩) }] := by
    unfold splitTransaction
    dsimp only
    rw [if_pos (by norm_num [conIvaOf, IVA_RATE])]
  have h := split_draft_invariants ⟨"08/02/2025", "CLASE", 10, none⟩ 40 (by norm_num) 0
    { fecha := "08/02/2025", concepto := "CLASE", base_imponible := 10,
      original_amount := 10, part_number := 1, total_parts := 1,
      importe_con_iva := round2 (conIvaOf ⟨"08/02/2025", "CLASE", 10, none⟩) }
    (by rw [hsingle]; exact rfl)
  exact ⟨h.1, h.2.1⟩

-- ### History-scan helper lemmas

theorem scanStep_eq (year acc : ℕ) (num : String) :
    scanStep year acc num =
      match parseFor year num with
      | some n => max acc n
      | none => acc := by
  unfold scanStep parseFor
  cases invoiceYearOf num with
  | none => rfl
  | some y =>
    dsimp only
    by_cases hy : y = year
    · rw [if_pos hy, if_pos hy]
      cases extractInvoiceNumber num with
      | none => rfl
      | some n =>
        dsimp only
        show (if n ≠ 0 ∧ acc < n then n else acc) = max acc n
        rcases eq_or_ne n 0 with rfl | hn0
        · rw [if_neg (by simp)]
          omega
        · by_cases hacc : acc < n
          · rw [if_pos ⟨hn0, hacc⟩]
            omega
          · rw [if_neg (by tauto)]
            omega
    · rw [if_neg hy, if_neg hy]

theorem foldl_scanStep (year : ℕ) (l : List String) : ∀ acc : ℕ,
    l.foldl (scanStep year) acc = (l.filterMap (parseFor year)).foldl max acc := by
  induction l with
  | nil => intro acc; rfl
  | cons x xs ih =>
    intro acc
    rw [List.foldl_cons, scanStep_eq]
    cases hx : parseFor year x with
    | none => rw [List.filterMap_cons, hx]; exact ih acc
    | some n => rw [List.filterMap_cons, hx, List.foldl_cons]; exact ih (max acc n)

theorem history_foldl_eq (year : ℕ) (history : List HistoryRecord) : ∀ acc : ℕ,
    history.foldl (fun acc r => r.invoice_files.foldl (scanStep year) acc) acc =
      ((allNumbers history).filterMap (parseFor year)).foldl max acc := by
  induction history with
  | nil => intro acc; rfl
  | cons r rest ih =>
    intro acc
    rw [List.foldl_cons, foldl_scanStep,
      show allNumbers (r :: rest) = r.invoice_files ++ allNumbers rest from rfl,
      List.filterMap_append, List.foldl_append]
    exact ih _

theorem getLast_eq (year : ℕ) (history : List HistoryRecord) :
    getLastInvoiceNumber year history =
      if specMaxSeq year history = 0 then lastInvoiceNumbersCfg year
      else specMaxSeq year history := by
  unfold getLastInvoiceNumber specMaxSeq parsedSeqs
  rw [history_foldl_eq]

theorem base_le_foldl_max (l : List ℕ) : ∀ acc : ℕ, acc ≤ l.foldl max acc := by
  induction l with
  | nil => intro acc; exact le_refl _
  | cons x xs ih =>
    intro acc
    rw [List.foldl_cons]
    exact le_trans (le_max_left _ _) (ih _)

theorem le_foldl_max (l : List ℕ) : ∀ (acc a : ℕ), a ∈ l → a ≤ l.foldl max acc := by
  induction l with
  | nil => intro _ a h; cases h
  | cons x xs ih =>
    intro acc a h
    rw [List.foldl_cons]
    rcases List.mem_cons.1 h with rfl | hmem
    · exact le_trans (le_max_right acc a) (base_le_foldl_max xs _)
    · exact ih _ a hmem

-- ### Claim C4

/-- C4 counterexample: the 4-digit-year-embedded number T20250264 is not
parsed as (year 2025, sequence 264); the scan's 2-digit pattern reads it
as year 2020 with sequence 2502, so with history containing only this
number, `get_last_invoice_number(2025)` falls back to the configuration
value 263 instead of being at least 264. -/
theorem scan_four_digit_year_cex :
    invoiceYearOf "T20250264" = some 2020 ∧
    extractInvoiceNumber "T20250264" = some 2502 ∧
    getLastInvoiceNumber 2025 [⟨["T20250264"]⟩] = 263 ∧
    ¬ 264 ≤ getLastInvoiceNumber 2025 [⟨["T20250264"]⟩] := by
  refine ⟨rfl, rfl, rfl, ?_⟩
  rw [show getLastInvoiceNumber 2025 [⟨["T20250264"]⟩] = 263 from rfl]
  omega

/-- C4 (amended): the numbering-continuity scan parses only the legacy
2-digit-year format T{yy}{seq:04d}; every history number whose embedded
2-digit year matches the requested year contributes its sequence to the
maximum, while a 4-digit-year number such as T20250264 is read under the
2-digit pattern as year 2020 with sequence 2502 (so it does not
contribute to year 2025). -/
theorem scan_legacy_format_contributes :
    (∀ (history : List HistoryRecord) (y : ℕ) (s : String) (n : ℕ),
      s ∈ allNumbers history → invoiceYearOf s = some y →
      extractInvoiceNumber s = some n → n ≤ getLastInvoiceNumber y history) ∧
    invoiceYearOf "T250264" = some 2025 ∧
    extractInvoiceNumber "T250264" = some 264 ∧
    invoiceYearOf "T20250264" = some 2020 ∧
    extractInvoiceNumber "T20250264" = some 2502 := by
  refine ⟨?_, rfl, rfl, rfl, rfl⟩
  intro history y s n hmem hyear hnum
  have hparse : parseFor y s = some n := by
    unfold parseFor
    rw [hyear]
    dsimp only
    rw [if_pos rfl, hnum]
  have hin : n ∈ parsedSeqs y history := List.mem_filterMap.2 ⟨s, hmem, hparse⟩
  have hle : n ≤ specMaxSeq y history := le_foldl_max _ 0 n hin
  rw [getLast_eq]
  by_cases h0 : specMaxSeq y history = 0
  · rw [if_pos h0]
    omega
  · rw [if_neg h0]
    exact hle

/-- C4 amended witness: a legacy number in history contributes. -/
theorem scan_legacy_format_contributes_witness :
    263 ≤ getLastInvoiceNumber 2025 [⟨["T250050", "T250263"]⟩] :=
  scan_legacy_format_contributes.1 [⟨["T250050", "T250263"]⟩] 2025 "T250263" 263
    (by simp [allNumbers]) rfl rfl

-- ### Claim C5

/-- C5 counterexample: with history containing only T250000, the scan
parses a sequence (namely 0) for year 2025, so the claimed "maximum
sequence among all parsed numbers" is 0; but the code treats a scan
maximum of 0 as "no history" and returns the configuration value 263. -/
theorem last_number_zero_sequence_cex :
    parsedSeqs 2025 [⟨["T250000"]⟩] = [0] ∧
    specMaxSeq 2025 [⟨["T250000"]⟩] = 0 ∧
    getLastInvoiceNumber 2025 [⟨["T250000"]⟩] = 263 ∧
    (263 : ℕ) ≠ 0 := by
  refine ⟨rfl, rfl, rfl, ?_⟩
  omega

/-- C5 (amended): `get_last_invoice_number(Y)` returns the maximum
sequence among parsed history numbers for year Y whenever that maximum
is positive; when it is 0 (no history number for Y, or only
zero-sequence numbers) it returns the static configuration entry for Y,
which is 0 for absent years; in particular with history T250050 and
T250263 it returns 263 for 2025, so the next batch starts at 264. -/
theorem last_number_max_or_config :
    (∀ (y : ℕ) (history : List HistoryRecord), 0 < specMaxSeq y history →
      getLastInvoiceNumber y history = specMaxSeq y history) ∧
    (∀ (y : ℕ) (history : List HistoryRecord), specMaxSeq y history = 0 →
      getLastInvoiceNumber y history = lastInvoiceNumbersCfg y) ∧
    lastInvoiceNumbersCfg 2025 = 263 ∧
    lastInvoiceNumbersCfg 2026 = 0 ∧
    getLastInvoiceNumber 2025 [⟨["T250050", "T250263"]⟩] = 263 ∧
    263 + 1 = 264 := by
  refine ⟨?_, ?_, rfl, rfl, rfl, rfl⟩
  · intro y history hpos
    rw [getLast_eq, if_neg (by omega)]
  · intro y history h0
    rw [getLast_eq, if_pos h0]

/-- C5 amended witness: scenario D history, year 2025. -/
theorem last_number_max_or_config_witness :
    getLastInvoiceNumber 2025 [⟨["T250050", "T250263"]⟩] =
      specMaxSeq 2025 [⟨["T250050", "T250263"]⟩] :=
  last_number_max_or_config.1 2025 [⟨["T250050", "T250263"]⟩]
    (by rw [show specMaxSeq 2025 [⟨["T250050", "T250263"]⟩] = 263 from rfl]; omega)

-- ### Header-scan helper lemmas

theorem findFrom_neg (grid : List (List String)) : ∀ (fuel i : ℕ),
    (∀ j, i ≤ j → j < i + fuel → qualAt grid j = false) →
    findFrom grid i fuel = -1 := by
  intro fuel
  induction fuel with
  | zero => intro i _; rfl
  | succ fuel ih =>
    intro i h
    have hq : qualAt grid i = false := h i (le_refl i) (by omega)
    simp only [findFrom, hq]
    exact ih (i + 1) (fun j hj1 hj2 => h j (by omega) (by omega))

theorem findFrom_found (grid : List (List String)) : ∀ (fuel i r : ℕ),
    findFrom grid i fuel = (r : Int) →
    i ≤ r ∧ r < i + fuel ∧ qualAt grid r = true ∧
      ∀ j, i ≤ j → j < r → qualAt grid j = false := by
  intro fuel
  induction fuel with
  | zero =>
    intro i r h
    simp only [findFrom] at h
    omega
  | succ fuel ih =>
    intro i r h
    simp only [findFrom] at h
    cases hq : qualAt grid i with
    | true =>
      rw [hq] at h
      simp only [if_true] at h
      have hir : i = r := by exact_mod_cast h
      subst hir
      exact ⟨le_refl _, by omega, hq, fun j hj1 hj2 => absurd hj1 (by omega)⟩
    | false =>
      rw [hq] at h
      simp only [Bool.false_eq_true, if_false] at h
      obtain ⟨h1, h2, h3, h4⟩ := ih (i + 1) r h
      refine ⟨by omega, by omega, h3, ?_⟩
      intro j hj1 hj2
      rcases Nat.eq_or_lt_of_le hj1 with rfl | hlt
      · exact hq
      · exact h4 j (by omega) hj2

theorem findFrom_found_of_qual (grid : List (List String)) : ∀ (fuel i j : ℕ),
    i ≤ j → j < i + fuel → qualAt grid j = true →
    ∃ r : ℕ, findFrom grid i fuel = (r : Int) ∧ i ≤ r ∧ r ≤ j := by
  intro fuel
  induction fuel with
  | zero =>
    intro i j hij hjlt _
    omega
  | succ fuel ih =>
    intro i j hij hjlt hq
    cases hqi : qualAt grid i with
    | true =>
      refine ⟨i, ?_, le_refl _, hij⟩
      simp only [findFrom, hqi, if_true]
    | false =>
      have hne : j ≠ i := by
        intro h
        subst h
        rw [hq] at hqi
        exact Bool.noConfusion hqi
      obtain ⟨r, hr, hir, hrj⟩ := ih (i + 1) j (by omega) (by omega) hq
      refine ⟨r, ?_, by omega, hrj⟩
      simp only [findFrom, hqi, Bool.false_eq_true, if_false]
      exact hr

-- ### Claim C6

/-- C6: `find_header_row` returns the smallest row index within the
first `max_scan_rows` rows whose lower-cased, trimmed cells give at
least one keyword match for at least two of the three roles, and -1
when no row in range qualifies. Soundness (a returned index is minimal
qualifying and in range), completeness (a qualifying row in range
forces a non-negative result no larger than that row), the not-found
case, and the fact that `rowQualifies` is exactly the "at least two of
three roles matched" test. -/
theorem find_header_row_first_match :
    (∀ (grid : List (List String)) (m r : ℕ), findHeaderRow grid m = (r : Int) →
      r < m ∧ qualAt grid r = true ∧ ∀ j, j < r → qualAt grid j = false) ∧
    (∀ (grid : List (List String)) (m j : ℕ), j < m → qualAt grid j = true →
      ∃ r : ℕ, findHeaderRow grid m = (r : Int) ∧ r ≤ j) ∧
    (∀ (grid : List (List String)) (m : ℕ),
      (∀ j, j < m → qualAt grid j = false) → findHeaderRow grid m = -1) ∧
    (∀ (grid : List (List String)) (i : ℕ),
      qualAt grid i = true ↔ ∃ row, grid.get? i = some row ∧ rowQualifies row = true) ∧
    (∀ row : List String, rowQualifies row = true ↔
      2 ≤ (if 0 < matchCount row fechaKeywords then 1 else 0) +
          (if 0 < matchCount row conceptoKeywords then 1 else 0) +
          (if 0 < matchCount row importeKeywords then 1 else 0)) := by
  refine ⟨?_, ?_, ?_, ?_, ?_⟩
  · intro grid m r h
    obtain ⟨_, h2, h3, h4⟩ := findFrom_found grid m 0 r h
    exact ⟨by omega, h3, fun j hj => h4 j (by omega) hj⟩
  · intro grid m j hjm hq
    obtain ⟨r, hr, _, hrj⟩ := findFrom_found_of_qual grid m 0 j (by omega) (by omega) hq
    exact ⟨r, hr, hrj⟩
  · intro grid m h
    exact findFrom_neg grid m 0 (fun j _ hj => h j (by omega))
  · intro grid i
    unfold qualAt
    cases grid.get? i with
    | none => simp
    | some row => simp
  · intro row
    by_cases hf : 0 < matchCount row fechaKeywords <;>
      by_cases hc : 0 < matchCount row conceptoKeywords <;>
        by_cases hi : 0 < matchCount row importeKeywords <;>
          simp [rowQualifies, hf, hc, hi]

/-- C6 witness: a grid whose header row sits at index 3. -/
theorem find_header_row_first_match_witness :
    (3 : ℕ) < 20 ∧
    qualAt [["Banco Santander"], ["Extracto"], ["Cuenta"],
      ["Fecha Operación", "Concepto", "Importe"]] 3 = true := by
  have h := find_header_row_first_match.1
    [["Banco Santander"], ["Extracto"], ["Cuenta"],
     ["Fecha Operación", "Concepto", "Importe"]] 20 3 (by decide)
  exact ⟨h.1, h.2.1⟩

-- ### String-containment helper lemmas

theorem str_data_append (a b : String) : (a ++ b).data = a.data ++ b.data := rfl

theorem self_sub (x : List Char) : x <:+: x := ⟨[], [], by simp⟩

theorem sub_append_right (x a b : List Char) (h : x <:+: b) : x <:+: a ++ b := by
  obtain ⟨s, t, rfl⟩ := h
  exact ⟨a ++ s, t, by simp [List.append_assoc]⟩

theorem sub_append_left (x a b : List Char) (h : x <:+: a) : x <:+: a ++ b := by
  obtain ⟨s, t, rfl⟩ := h
  exact ⟨s, t ++ b, by simp [List.append_assoc]⟩

theorem str_sub_right (x : List Char) (a b : String) (h : x <:+: b.data) :
    x <:+: (a ++ b).data := by
  rw [str_data_append]
  exact sub_append_right x a.data b.data h

theorem str_sub_left (x : List Char) (a b : String) (h : x <:+: a.data) :
    x <:+: (a ++ b).data := by
  rw [str_data_append]
  exact sub_append_left x a.data b.data h

theorem mem_pyJoin_sub (sep : String) : ∀ (l : List String), ∀ s ∈ l,
    s.data <:+: (pyJoin sep l).data := by
  intro l
  induction l with
  | nil => intro s h; cases h
  | cons x xs ih =>
    intro s hs
    rcases List.mem_cons.1 hs with rfl | hmem
    · cases xs with
      | nil => exact self_sub s.data
      | cons y ys =>
        rw [show pyJoin sep (s :: y :: ys) = s ++ sep ++ pyJoin sep (y :: ys) from rfl]
        exact str_sub_left _ _ _ (str_sub_left _ _ _ (self_sub s.data))
    · cases xs with
      | nil => cases hmem
      | cons y ys =>
        rw [show pyJoin sep (x :: y :: ys) = x ++ sep ++ pyJoin sep (y :: ys) from rfl]
        exact str_sub_right _ _ _ (ih s hmem)

theorem colsListing_acc_sub : ∀ (l : List String) (acc : String),
    acc.data <:+: (l.foldl (fun a c => a ++ ("  - " ++ c ++ "\n")) acc).data := by
  intro l
  induction l with
  | nil => intro acc; exact self_sub _
  | cons x xs ih =>
    intro acc
    rw [List.foldl_cons]
    exact (str_sub_left _ _ _ (self_sub acc.data)).trans (ih _)

theorem mem_colsListing_sub : ∀ (l : List String) (acc : String), ∀ c ∈ l,
    c.data <:+: (l.foldl (fun a c => a ++ ("  - " ++ c ++ "\n")) acc).data := by
  intro l
  induction l with
  | nil => intro acc c h; cases h
  | cons x xs ih =>
    intro acc c hc
    rw [List.foldl_cons]
    rcases List.mem_cons.1 hc with rfl | hmem
    · have h1 : c.data <:+: (acc ++ ("  - " ++ c ++ "\n")).data :=
        str_sub_right _ _ _ (str_sub_left _ _ _ (str_sub_right _ _ _ (self_sub c.data)))
      exact h1.trans (colsListing_acc_sub xs _)
    · exact ih _ c hmem

theorem foundListing_acc_sub : ∀ (l : List (String × String)) (acc : String),
    acc.data <:+:
      (l.foldl (fun a kv => a ++ ("  - " ++ kv.1 ++ ": " ++ kv.2 ++ "\n")) acc).data := by
  intro l
  induction l with
  | nil => intro acc; exact self_sub _
  | cons x xs ih =>
    intro acc
    rw [List.foldl_cons]
    exact (str_sub_left _ _ _ (self_sub acc.data)).trans (ih _)

theorem mem_foundListing_sub : ∀ (l : List (String × String)) (acc : String), ∀ kv ∈ l,
    kv.2.data <:+:
      (l.foldl (fun a kv => a ++ ("  - " ++ kv.1 ++ ": " ++ kv.2 ++ "\n")) acc).data := by
  intro l
  induction l with
  | nil => intro acc kv h; cases h
  | cons x xs ih =>
    intro acc kv hkv
    rw [List.foldl_cons]
    rcases List.mem_cons.1 hkv with rfl | hmem
    · have h1 : kv.2.data <:+: (acc ++ ("  - " ++ kv.1 ++ ": " ++ kv.2 ++ "\n")).data :=
        str_sub_right _ _ _ (str_sub_left _ _ _ (str_sub_right _ _ _ (self_sub kv.2.data)))
      exact h1.trans (foundListing_acc_sub xs _)
    · exact ih _ kv hmem

theorem buildColumnsError_subs (df : DataFrame) (cols : ColumnMapping) :
    (∀ role ∈ missingRoles cols, role.data <:+: (buildColumnsError df cols).data) ∧
    (∀ c ∈ df.columns, c.data <:+: (buildColumnsError df cols).data) ∧
    (∀ kv ∈ foundRoles cols, kv.2.data <:+: (buildColumnsError df cols).data) := by
  unfold buildColumnsError
  refine ⟨?_, ?_, ?_⟩
  · intro role hrole
    have h1 : role.data <:+: (pyJoin ", " (missingRoles cols)).data :=
      mem_pyJoin_sub _ _ role hrole
    exact str_sub_left _ _ _ (str_sub_left _ _ _ (str_sub_left _ _ _ (str_sub_left _ _ _
      (str_sub_left _ _ _ (str_sub_right _ _ _ h1)))))
  · intro c hc
    have h1 : c.data <:+: (colsListing df.columns).data :=
      mem_colsListing_sub df.columns "" c hc
    exact str_sub_left _ _ _ (str_sub_left _ _ _ (str_sub_right _ _ _ h1))
  · intro kv hkv
    have hne : foundRoles cols ≠ [] := List.ne_nil_of_mem hkv
    rw [if_neg hne]
    have h1 : kv.2.data <:+: (foundListing (foundRoles cols)).data :=
      mem_foundListing_sub (foundRoles cols) "" kv hkv
    exact str_sub_left _ _ _ (str_sub_right _ _ _ (str_sub_right _ _ _ h1))

-- ### Claim C7

/-- C7: when at least one role is unresolved after column resolution,
`filter_income_transactions` fails with the single descriptive error
message (which textually contains every missing role name, every column
name of the grid, and every resolved role's column), and it never
returns transactions. -/
theorem incomplete_mapping_errors (df : DataFrame) (cols : ColumnMapping)
    (h : cols.fecha_operacion = none ∨ cols.concepto = none ∨ cols.importe = none) :
    filterIncomeTransactions df cols = Except.error (buildColumnsError df cols) ∧
    missingRoles cols ≠ [] ∧
    (∀ role ∈ missingRoles cols, role.data <:+: (buildColumnsError df cols).data) ∧
    (∀ c ∈ df.columns, c.data <:+: (buildColumnsError df cols).data) ∧
    (∀ kv ∈ foundRoles cols, kv.2.data <:+: (buildColumnsError df cols).data) ∧
    ∀ out, filterIncomeTransactions df cols ≠ Except.ok out := by
  have herr : filterIncomeTransactions df cols =
      Except.error (buildColumnsError df cols) := by
    unfold filterIncomeTransactions
    rcases hf : cols.fecha_operacion with _ | fc
    · rfl
    · rcases hcc : cols.concepto with _ | cc
      · rfl
      · rcases hi : cols.importe with _ | ic
        · rfl
        · exfalso
          rw [hf, hcc, hi] at h
          rcases h with h | h | h <;> exact Option.noConfusion h
  have hmiss : missingRoles cols ≠ [] := by
    unfold missingRoles
    rcases h with h | h | h <;> rw [h] <;> simp
  obtain ⟨hs1, hs2, hs3⟩ := buildColumnsError_subs df cols
  refine ⟨herr, hmiss, hs1, hs2, hs3, ?_⟩
  intro out hout
  rw [herr] at hout
  exact Except.noConfusion hout

/-- C7 witness: a mapping with the date and amount roles unresolved. -/
theorem incomplete_mapping_errors_witness :
    filterIncomeTransactions ⟨["Fecha valor", "Saldo"], []⟩
        ⟨none, some "Concepto", none⟩ =
      Except.error (buildColumnsError ⟨["Fecha valor", "Saldo"], []⟩
        ⟨none, some "Concepto", none⟩) ∧
    missingRoles ⟨none, some "Concepto", none⟩ ≠ [] := by
  have h := incomplete_mapping_errors ⟨["Fecha valor", "Saldo"], []⟩
    ⟨none, some "Concepto", none⟩ (Or.inl rfl)
  exact ⟨h.1, h.2.1⟩

-- ### Claim C8

/-- C8: numeric amounts pass through `clean_amount` unchanged; string
amounts are stripped to digits/comma/period/minus, commas become
periods, and the result parses as a decimal with 0.0 on failure; the
string "-45,30" cleans to -45.30 and its row is excluded with the
reason rendered in the source as "Gasto o importe cero" ("expense or
zero amount"). -/
theorem clean_amount_behavior :
    (∀ q : ℚ, cleanAmount (CellValue.num q) = q) ∧
    cleanAmount CellValue.na = 0 ∧
    (∀ s : String, pyFloat? (cleanedChars s) = none →
      cleanAmount (CellValue.str s) = 0) ∧
    (∀ (s : String) (q : ℚ), pyFloat? (cleanedChars s) = some q →
      cleanAmount (CellValue.str s) = q) ∧
    cleanedChars "-45,30" = ['-', '4', '5', '.', '3', '0'] ∧
    cleanAmount (CellValue.str "-45,30") = -(453/10) ∧
    filterIncomeTransactions dfE colsFull = Except.ok ([], [exclE]) := by
  have hp1 : pyFloat? (cleanedChars "-45,30") =
      some (-((digitsToNat ['4','5'] : ℚ) +
        (digitsToNat ['3','0'] : ℚ) / (10:ℚ) ^ (['3','0'].length))) := rfl
  have hp2 : pyFloat? (cleanedChars "-45,30") = some (-(453/10)) := by
    rw [hp1, show digitsToNat ['4','5'] = 45 from rfl,
      show digitsToNat ['3','0'] = 30 from rfl]
    norm_num
  have hval : cleanAmount (CellValue.str "-45,30") = -(453/10) := by
    unfold cleanAmount
    dsimp only
    rw [hp2]
  have htr : tryProcessRow "Fecha Operación" "Concepto" "Importe" rowE =
      Except.ok (Sum.inr exclE) := by
    unfold tryProcessRow
    rw [show rowGet rowE "Importe" = Except.ok (CellValue.str "-45,30") from rfl]
    dsimp only [Bind.bind, Monad.toBind, Except.instMonad, Except.bind, pure, Except.pure]
    rw [hval]
    rw [show rowGet rowE "Fecha Operación" =
      Except.ok (CellValue.str "02/01/2025") from rfl]
    dsimp only [Bind.bind, Monad.toBind, Except.instMonad, Except.bind, pure, Except.pure]
    rw [show rowGet rowE "Concepto" = Except.ok (CellValue.str "RECIBO") from rfl]
    dsimp only [Bind.bind, Monad.toBind, Except.instMonad, Except.bind, pure, Except.pure]
    rw [if_neg (by norm_num : ¬ (0:ℚ) < -(453/10))]
    rw [if_pos (by norm_num : (-(453/10) : ℚ) < 0)]
    rfl
  have hpr : processRow "Fecha Operación" "Concepto" "Importe" rowE =
      Sum.inr exclE := by
    unfold processRow
    rw [htr]
  refine ⟨fun q => rfl, rfl, ?_, ?_, rfl, hval, ?_⟩
  · intro s h
    unfold cleanAmount
    dsimp only
    rw [h]
  · intro s q h
    unfold cleanAmount
    dsimp only
    rw [h]
  · unfold filterIncomeTransactions dfE colsFull
    dsimp only
    rw [if_neg (by decide)]
    unfold collectResults
    rw [List.map_cons, List.map_nil, hpr]
    rfl

/-- C8 witness: numeric pass-through, a parse failure, and Scenario E. -/
theorem clean_amount_behavior_witness :
    cleanAmount (CellValue.num 5) = 5 ∧
    cleanAmount (CellValue.str "x") = 0 ∧
    cleanAmount (CellValue.str "-45,30") = -(453/10) := by
  have h := clean_amount_behavior
  exact ⟨h.1 5, h.2.2.1 "x" rfl, h.2.2.2.2.2.1⟩

-- ### Claim C9

theorem collect_length (l : List (Transaction ⊕ ExcludedTx)) :
    (l.filterMap leftValue?).length + (l.filterMap rightValue?).length = l.length := by
  induction l with
  | nil => rfl
  | cons x xs ih =>
    cases x with
    | inl t =>
      simp only [List.filterMap_cons, leftValue?, rightValue?, List.length_cons]
      omega
    | inr ex =>
      simp only [List.filterMap_cons, leftValue?, rightValue?, List.length_cons]
      omega

/-- C9: with a fully resolved mapping, extraction always returns
normally; every row becomes either an included transaction or an
excluded entry (so included + excluded = total rows); a row whose
processing raises is recorded as an excluded entry whose reason carries
the exception text, and the remaining rows are still processed; the
returned info reports total rows, included count, excluded count and
the mapping. -/
theorem row_failure_never_aborts (df : DataFrame) (fc cc ic : String)
    (h1 : fc ≠ "") (h2 : cc ≠ "") (h3 : ic ≠ "") :
    filterIncomeTransactions df ⟨some fc, some cc, some ic⟩ =
      Except.ok ((df.rows.map (processRow fc cc ic)).filterMap leftValue?,
        (df.rows.map (processRow fc cc ic)).filterMap rightValue?) ∧
    ((df.rows.map (processRow fc cc ic)).filterMap leftValue?).length +
      ((df.rows.map (processRow fc cc ic)).filterMap rightValue?).length =
      df.rows.length ∧
    processSantanderData df ⟨some fc, some cc, some ic⟩ =
      Except.ok ((df.rows.map (processRow fc cc ic)).filterMap leftValue?,
        (df.rows.map (processRow fc cc ic)).filterMap rightValue?,
        ⟨df.rows.length,
         ((df.rows.map (processRow fc cc ic)).filterMap leftValue?).length,
         ((df.rows.map (processRow fc cc ic)).filterMap rightValue?).length,
         ⟨some fc, some cc, some ic⟩⟩) ∧
    ∀ row ∈ df.rows, ∀ e, tryProcessRow fc cc ic row = Except.error e →
      errorEntry fc cc row e ∈
        (df.rows.map (processRow fc cc ic)).filterMap rightValue? ∧
      (errorEntry fc cc row e).razon = "Error al procesar: " ++ e := by
  have hok : filterIncomeTransactions df ⟨some fc, some cc, some ic⟩ =
      Except.ok (collectResults (df.rows.map (processRow fc cc ic))) := by
    unfold filterIncomeTransactions
    dsimp only
    rw [if_neg (by simp [h1, h2, h3])]
  have hlen := collect_length (df.rows.map (processRow fc cc ic))
  rw [List.length_map] at hlen
  refine ⟨hok, hlen, ?_, ?_⟩
  · unfold processSantanderData
    rw [hok]
    unfold collectResults
    rfl
  · intro row hrow e he
    have hpr : processRow fc cc ic row = Sum.inr (errorEntry fc cc row e) := by
      unfold processRow
      rw [he]
    constructor
    · apply List.mem_filterMap.2
      refine ⟨processRow fc cc ic row, List.mem_map_of_mem _ hrow, ?_⟩
      rw [hpr]
      rfl
    · unfold errorEntry
      cases rowGet row cc with
      | ok v => rfl
      | error err => rfl

/-- C9 witness: one good row plus one row whose amount cell is missing
(a KeyError); the batch still succeeds and the raising row appears as
an excluded entry. -/
theorem row_failure_never_aborts_witness :
    filterIncomeTransactions dfW colsFull =
      Except.ok ((dfW.rows.map (processRow "Fecha Operación" "Concepto" "Importe")).filterMap leftValue?,
        (dfW.rows.map (processRow "Fecha Operación" "Concepto" "Importe")).filterMap rightValue?) ∧
    ((dfW.rows.map (processRow "Fecha Operación" "Concepto" "Importe")).filterMap leftValue?).length +
      ((dfW.rows.map (processRow "Fecha Operación" "Concepto" "Importe")).filterMap rightValue?).length =
      dfW.rows.length ∧
    errorEntry "Fecha Operación" "Concepto" rowBadW "KeyError: Importe" ∈
      (dfW.rows.map (processRow "Fecha Operación" "Concepto" "Importe")).filterMap rightValue? ∧
    (errorEntry "Fecha Operación" "Concepto" rowBadW "KeyError: Importe").razon =
      "Error al procesar: " ++ "KeyError: Importe" := by
  have h := row_failure_never_aborts dfW "Fecha Operación" "Concepto" "Importe"
    (by decide) (by decide) (by decide)
  have h4 := h.2.2.2 rowBadW (by simp [dfW]) "KeyError: Importe" rfl
  exact ⟨h.1, h.2.1, h4.1, h4.2⟩
